import Mathlib

/-!
Verification of the natural-language specification of a small interactive
POSIX-style shell (single C++ source file, `src/main.cpp`) against a shallow
embedding of its core algorithms: the lexer (`tokenize`), the redirection
extraction loop, the PATH resolver, the `cd` builtin, the pipeline
setup/failure path, the history `-a` cursor logic, and the tab-completion
engine.

Every definition below is translated directly from the C++ source; OS
primitives (`stat`, `chdir`, `opendir`, `pipe`, `fork`) are abstracted as
explicit function parameters describing their observable results, and
the readline history list is modelled as the list of entries it holds.
-/

namespace Shell

/-- The single-quote character, written via its code point. -/
def squote : Char := Char.ofNat 39

/-- Characters that `std::isspace` accepts in the default C locale:
space, tab, newline, vertical tab, form feed, carriage return
(`main.cpp` line 59 calls `std::isspace(c)`). -/
def isSpaceByte (c : Char) : Bool :=
  c = ' ' || c = '\t' || c = '\n' || c = Char.ofNat 11 || c = Char.ofNat 12 || c = '\r'

/-- The four characters a backslash escapes inside double quotes
(`main.cpp` lines 43-44: `"`, `\`, `$`, newline). -/
def isDQSpecial (c : Char) : Bool :=
  c = '"' || c = '\\' || c = '$' || c = '\n'

/-- The state machine of `tokenize` (`main.cpp` lines 24-74), translated to
structural recursion on the remaining characters.  The two boolean state
flags `inS`/`inD` are the C++ `in_single_quote`/`in_double_quote`; `cur` is
the C++ accumulator `current`.  The C++ loop looks one character ahead
(`s[i + 1]`) in the backslash branches, hence the separate one-character and
two-character patterns: with a single character left, the `i + 1 < s.size()`
guards are false and the code falls through to the non-escape branches. -/
def tokenizeAux : Bool → Bool → List Char → List Char → List (List Char)
  | _, _, cur, [] => if cur = [] then [] else [cur]
  | inS, inD, cur, [c] =>
    if inS then
      if c = squote then tokenizeAux false inD cur []
      else tokenizeAux inS inD (cur ++ [c]) []
    else if inD then
      if c = '"' then tokenizeAux inS false cur []
      else tokenizeAux inS inD (cur ++ [c]) []
    else
      if c = squote then tokenizeAux true inD cur []
      else if c = '"' then tokenizeAux inS true cur []
      else if isSpaceByte c then
        if cur = [] then tokenizeAux inS inD [] []
        else cur :: tokenizeAux inS inD [] []
      else tokenizeAux inS inD (cur ++ [c]) []
  | inS, inD, cur, c :: c2 :: rest =>
    if inS then
      if c = squote then tokenizeAux false inD cur (c2 :: rest)
      else tokenizeAux inS inD (cur ++ [c]) (c2 :: rest)
    else if inD then
      if c = '"' then tokenizeAux inS false cur (c2 :: rest)
      else if c = '\\' then
        if isDQSpecial c2 then tokenizeAux inS inD (cur ++ [c2]) rest
        else tokenizeAux inS inD (cur ++ [c]) (c2 :: rest)
      else tokenizeAux inS inD (cur ++ [c]) (c2 :: rest)
    else
      if c = squote then tokenizeAux true inD cur (c2 :: rest)
      else if c = '"' then tokenizeAux inS true cur (c2 :: rest)
      else if c = '\\' then tokenizeAux inS inD (cur ++ [c2]) rest
      else if isSpaceByte c then
        if cur = [] then tokenizeAux inS inD [] (c2 :: rest)
        else cur :: tokenizeAux inS inD [] (c2 :: rest)
      else tokenizeAux inS inD (cur ++ [c]) (c2 :: rest)

/-- `tokenize` from `main.cpp` lines 24-74: split a raw line into argument
tokens under the quoting rules. -/
def tokenize (s : String) : List String :=
  (tokenizeAux false false [] s.data).map List.asString

example : tokenize "a   b\tc" = ["a", "b", "c"] := by decide
example : tokenize "a\\" = ["a\\"] := by decide
example : tokenize "\"a\\\"b\"" = ["a\"b"] := by decide
example : tokenize "\"a\\nb\"" = ["a\\nb"] := by decide
example : tokenize "\x27> \x27 rest" = ["> ", "rest"] := by decide
example : tokenize "\"\"" = [] := by decide

/-- Output of the `echo` builtin for a residual argument list
(`main.cpp` lines 439-445): arguments joined by single spaces, then a
newline. -/
def echoOutput (args : List String) : String :=
  String.intercalate " " args ++ "\n"

/-! ### Redirection extraction

`main.cpp` runs the same extraction loop in the `echo` builtin
(lines 377-405) and in the external-command path (lines 587-615): it scans
the token vector, and for each of the six operator strings followed by at
least one more token it records the following token as the target (with the
append flag) and erases both. -/

/-- The redirection variables of the extraction loop: `redirect_file`,
`append_mode`, `redirect_stderr_file`, `append_stderr_mode`
(`main.cpp` lines 585-586).  An empty file string means "no redirection". -/
structure RedirSt where
  redirectFile : String
  appendMode : Bool
  redirectStderrFile : String
  appendStderrMode : Bool
deriving DecidableEq, Repr

/-- Initial redirection state: both file names empty, both flags false. -/
def redirInit : RedirSt := ⟨"", false, "", false⟩

/-- The extraction loop of `main.cpp` lines 587-615 (identical to lines
377-405): each operator branch requires `i + 1 < tokens.size()`, so an
operator that is the last token falls through to `++i` and stays in the
vector.  Returns the final redirection state and the residual argv. -/
def extractRedirAux : RedirSt → List String → RedirSt × List String
  | st, [] => (st, [])
  | st, [t] => (st, [t])
  | st, t :: t2 :: rest =>
    if t = ">" ∨ t = "1>" then
      extractRedirAux { st with redirectFile := t2, appendMode := false } rest
    else if t = ">>" ∨ t = "1>>" then
      extractRedirAux { st with redirectFile := t2, appendMode := true } rest
    else if t = "2>" then
      extractRedirAux { st with redirectStderrFile := t2, appendStderrMode := false } rest
    else if t = "2>>" then
      extractRedirAux { st with redirectStderrFile := t2, appendStderrMode := true } rest
    else
      let r := extractRedirAux st (t2 :: rest)
      (r.1, t :: r.2)

/-- The six redirection operator strings. -/
def redirOps : List String := [">", "1>", ">>", "1>>", "2>", "2>>"]

example : extractRedirAux redirInit ["a", ">", "f", "b"] =
    (⟨"f", false, "", false⟩, ["a", "b"]) := by decide
example : extractRedirAux redirInit ["a", ">"] = (redirInit, ["a", ">"]) := by decide
example : extractRedirAux redirInit [">", "f1", ">>", "f2"] =
    (⟨"f2", true, "", false⟩, []) := by decide

/-! ### PATH splitting and the path resolver -/

/-- The `std::getline(path_stream, dir, ':')` loop used throughout
`main.cpp` (e.g. lines 632, 476, 128), translated piecewise: `getline`
succeeds as long as at least one character (the delimiter included) is
extracted, so a trailing `:` does not produce a final empty entry, while
`::` and a leading `:` do produce empty entries. -/
def splitColonAux (acc : List Char) : List Char → List (List Char)
  | [] => [acc.reverse]
  | c :: rest =>
    if c = ':' then
      match rest with
      | [] => [acc.reverse]
      | _ :: _ => acc.reverse :: splitColonAux [] rest
    else splitColonAux (c :: acc) rest

/-- Split a PATH-style string on `:` with `std::getline` semantics; an empty
string yields no entries at all (the first `getline` already fails). -/
def splitColon (s : String) : List String :=
  match s.data with
  | [] => []
  | c :: rest => (splitColonAux [] (c :: rest)).map List.asString

example : splitColon "a::b" = ["a", "", "b"] := by decide
example : splitColon "a:" = ["a"] := by decide
example : splitColon ":a" = ["", "a"] := by decide
example : splitColon "" = [] := by decide
example : splitColon ":" = [""] := by decide

/-- The result of a successful `stat` call, keeping the two mode bits the
program inspects: `st_mode & S_IXUSR` and `st_mode & S_IFDIR`. -/
structure StatInfo where
  ixusr : Bool
  isDir : Bool
deriving DecidableEq, Repr

/-- The test the resolver applies to a probed candidate
(`main.cpp` line 636): `stat(...) == 0 && sb.st_mode & S_IXUSR`.
Note that there is no directory check here. -/
def statExecOk (r : Option StatInfo) : Bool :=
  match r with
  | some m => m.ixusr
  | none => false

/-- The PATH search loop of `main.cpp` lines 630-643: probe `d ++ "/" ++ c`
for each directory `d` in order, returning the first candidate whose stat
succeeds with the owner-execute bit set. -/
def searchPathDirs (fs : String → Option StatInfo) (c : String) : List String → Option String
  | [] => none
  | d :: ds =>
    if statExecOk (fs (d ++ "/" ++ c)) then some (d ++ "/" ++ c)
    else searchPathDirs fs c ds

/-- The executable resolver of `main.cpp` lines 623-651 (the same loop
appears in the `type` builtin, lines 470-487): a name containing `/` is
used as-is; otherwise `$PATH` (absent ↦ `none`) is split on `:` and
searched in order; `none` is the `command not found` outcome. -/
def resolveExec (fs : String → Option StatInfo) (pathEnv : Option String)
    (c : String) : Option String :=
  if '/' ∈ c.data then some c
  else
    match pathEnv with
    | none => none
    | some p => searchPathDirs fs c (splitColon p)

/-! ### The `cd` builtin -/

/-- Diagnostic format of the `cd` builtin (`main.cpp` lines 572 and 576). -/
def cdMsg (path : String) : String := "cd: " ++ path ++ ": No such file or directory"

/-- The `cd` builtin, `main.cpp` lines 562-577.  `home` is `getenv("HOME")`
(`none` when unset); `chdirOk d` tells whether `chdir(d)` would succeed.
Result: the directory `chdir` was actually called on (if any), and the
lines printed to stderr.  With `~`, the condition
`if (home && chdir(home) != 0)` calls `chdir` only when `$HOME` is set, and
prints nothing at all when it is unset. -/
def cdStep (path : String) (home : Option String) (chdirOk : String → Bool) :
    Option String × List String :=
  if path = "" then (none, [])
  else if path = "~" then
    match home with
    | none => (none, [])
    | some h => if chdirOk h then (some h, []) else (some h, [cdMsg "~"])
  else if chdirOk path then (some path, []) else (some path, [cdMsg path])

/-! ### Pipeline setup failure handling

`main.cpp` lines 231-353: after splitting the line on `|` into `n` stages,
the parent allocates `n - 1` pipes in a loop; if `pipe()` fails it prints
`"Failed to create pipe"` and executes `return 1` — terminating the whole
shell process without closing the descriptors already allocated.  It then
forks `n` children in a loop; if `fork()` fails it closes all `2*(n-1)`
pipe descriptors, prints `"Failed to fork"` and also executes `return 1`.
Only when every call succeeds does the parent close all pipe ends, wait,
and `continue` to the next prompt. -/

/-- Observable outcome of the setup phase of one pipeline.  `replContinues` is
true when control reaches the `continue` at line 353 (the REPL reads the
next line); `exitStatus = some s` means `main` executed `return s`, i.e.
the shell process terminated.  `pipesAllocated` counts successful `pipe()`
calls; `parentFdsClosed` counts `close()` calls the parent performed. -/
structure PipelineAttempt where
  replContinues : Bool
  exitStatus : Option Nat
  pipesAllocated : Nat
  parentFdsClosed : Nat
  errs : List String
deriving DecidableEq, Repr

/-- Index of the first failing call in a loop of `k` calls starting at
index `i`, mirroring the C++ `for` loops that bail out on the first
failure (`ok j` = call number `j` succeeds). -/
def firstFailFrom (ok : Nat → Bool) (i : Nat) : Nat → Option Nat
  | 0 => none
  | k + 1 => if ok i then firstFailFrom ok (i + 1) k else some i

/-- The pipeline setup of `main.cpp` lines 231-353.  `pipeOk i` (`forkOk i`)
tells whether the `i`-th `pipe()` (`fork()`) call succeeds. -/
def runPipelineSetup (n : Nat) (pipeOk forkOk : Nat → Bool) : PipelineAttempt :=
  match firstFailFrom pipeOk 0 (n - 1) with
  | some i =>
    { replContinues := false, exitStatus := some 1, pipesAllocated := i,
      parentFdsClosed := 0, errs := ["Failed to create pipe"] }
  | none =>
    match firstFailFrom forkOk 0 n with
    | some _ =>
      { replContinues := false, exitStatus := some 1, pipesAllocated := n - 1,
        parentFdsClosed := 2 * (n - 1), errs := ["Failed to fork"] }
    | none =>
      { replContinues := true, exitStatus := none, pipesAllocated := n - 1,
        parentFdsClosed := 2 * (n - 1), errs := [] }

/-! ### History store and the `history -a` cursor -/

/-- The in-memory history (the readline entry list, appended to by
`add_history`) together with the cursor variable of the shell,
`last_appended_history` (`main.cpp` line 193, initialized to 0). -/
structure HistState where
  entries : List String
  lastAppended : Nat
deriving DecidableEq, Repr

/-- Initial history state of a fresh shell with no history file. -/
def histInit : HistState := ⟨[], 0⟩

/-- The write loop of `history -a` (`main.cpp` lines 521-522):
`for (int i = last_appended_history; i < total; ++i)` prints entry `i`.
Translated with the remaining iteration count as the recursion argument:
starting at index `i` with `k` iterations left. -/
def writeRange (l : List String) : Nat → Nat → List String
  | _, 0 => []
  | i, k + 1 => l.getD i "" :: writeRange l (i + 1) k

/-- The lines `history -a` appends to its file: entries from
`last_appended_history` up to the current length. -/
def writtenByDashA (s : HistState) : List String :=
  writeRange s.entries s.lastAppended (s.entries.length - s.lastAppended)

/-- The operations claim C7 ranges over: `append` (a non-blank line is
added via `add_history`, `main.cpp` line 205) and `history -a F`
(`main.cpp` lines 510-527). -/
inductive HistOp where
  | append (line : String)
  | dashA
deriving DecidableEq, Repr

/-- One history operation: returns the new state and the lines written to
the `-a` file during the step (empty for `append`).  `history -a` writes
the pending range and then sets `last_appended_history := total`
(`main.cpp` line 524). -/
def histStep : HistState → HistOp → HistState × List String
  | s, .append line => ({ s with entries := s.entries ++ [line] }, [])
  | s, .dashA => ({ s with lastAppended := s.entries.length }, writtenByDashA s)

/-- Run a sequence of history operations from a state. -/
def histRun : HistState → List HistOp → HistState
  | s, [] => s
  | s, op :: ops => histRun (histStep s op).1 ops

/-! ### Completion engine -/

/-- The builtin table, `main.cpp` line 15. -/
def builtins : List String := ["echo", "exit", "history", "pwd", "cd", "type"]

/-- `is_builtin`, `main.cpp` lines 18-21. -/
def isBuiltin (cmd : String) : Bool := builtins.contains cmd

/-- Lexicographic (byte-wise) strict comparison of character lists: the
order `std::string::operator<` uses. -/
def charListLt : List Char → List Char → Bool
  | _, [] => false
  | [], _ :: _ => true
  | a :: as, b :: bs => if a < b then true else if b < a then false else charListLt as bs

/-- Strict `std::string` comparison. -/
def strLt (a b : String) : Bool := charListLt a.data b.data

/-- Non-strict `std::string` comparison (`a <= b` iff `!(b < a)`). -/
def strLe (a b : String) : Bool := !charListLt b.data a.data

/-- `name.compare(0, len, text) == 0` with `len = strlen(text)`
(`main.cpp` lines 98 and 137): the candidate starts with the typed
prefix. -/
def strIsPrefixOf (p s : String) : Bool := p.data.isPrefixOf s.data

/-- Matches produced by `builtin_generator` (`main.cpp` lines 88-103): the
builtins whose first `len` characters equal the typed prefix, in the order
of the `builtins` vector.  (`rl_completion_matches` is the readline
collaborator; it is modelled as returning the matches of the generator in
generation order.) -/
def builtinMatches (pre : String) : List String :=
  builtins.filter (fun b => strIsPrefixOf pre b)

/-- Keep only the prefix-matching executable names of one directory
(`main.cpp` lines 134-144): the stat test here is
`sb.st_mode & S_IXUSR && !(sb.st_mode & S_IFDIR)`. -/
def dirMatches (fs : String → Option StatInfo) (pre dir : String)
    (names : List String) : List String :=
  names.filter (fun nm =>
    strIsPrefixOf pre nm &&
      match fs (dir ++ "/" ++ nm) with
      | some m => m.ixusr && !m.isDir
      | none => false)

/-- `std::unique` applied to a sorted vector (`main.cpp` line 148): drop
adjacent duplicates, keeping the first of each run. -/
def uniqueAdjAux (a : String) : List String → List String
  | [] => [a]
  | b :: rest => if a = b then uniqueAdjAux a rest else a :: uniqueAdjAux b rest

/-- `std::unique` on a whole list. -/
def uniqueAdj : List String → List String
  | [] => []
  | a :: rest => uniqueAdjAux a rest

/-- Matches produced by `external_command_generator` (`main.cpp` lines
114-153): scan each `$PATH` directory (`dirContents d = none` models a
failing `opendir`), collect prefix-matching executable names, sort
(`std::sort`, modelled by insertion sort) and remove adjacent duplicates
(`std::unique` + `erase`).  A missing `$PATH` yields no matches. -/
def externalMatches (dirContents : String → Option (List String))
    (fs : String → Option StatInfo) (pathEnv : Option String) (pre : String) :
    List String :=
  match pathEnv with
  | none => []
  | some p =>
    uniqueAdj (List.insertionSort (fun a b => strLe a b = true)
      ((splitColon p).flatMap (fun dir =>
        match dirContents dir with
        | none => []
        | some names => dirMatches fs pre dir names)))

/-- `command_completion` (`main.cpp` lines 155-185) at the first token
position: concatenate the builtin matches and the external matches; if the
union is empty, ring the bell and return no list (`none`). -/
def commandCompletion (dirContents : String → Option (List String))
    (fs : String → Option StatInfo) (pathEnv : Option String) (pre : String) :
    Option (List String) :=
  let all := builtinMatches pre ++ externalMatches dirContents fs pathEnv pre
  if all = [] then none else some all

/-! ## Lexer lemmas -/

/-- Every token the lexer pushes is non-empty: both `push_back` sites
(`main.cpp` lines 61-65 and 71-72) are guarded by `!current.empty()`. -/
theorem tokenizeAux_ne_nil (inS inD : Bool) (cur : List Char) (l : List Char) :
    ∀ t ∈ tokenizeAux inS inD cur l, t ≠ [] := by
  induction inS, inD, cur, l using tokenizeAux.induct <;>
    simp_all [tokenizeAux]

/-- Claim C10: every token emitted by the lexer is non-empty; a quoted
empty string (two single quotes or two double quotes) contributes no token at all, so the argument
list of `echo ""` is empty and `echo ""` prints only a newline.  (The
`echo` builtin tokenizes the remainder of the line after `echo`, here
`" \"\""`, extracts redirections from it and prints the residual argv.) -/
theorem c10_tokens_nonempty :
    (∀ (s : String), ∀ t ∈ tokenize s, t ≠ "") ∧
    tokenize "\x27\x27" = [] ∧
    tokenize "\"\"" = [] ∧
    tokenize " \"\"" = [] ∧
    echoOutput (extractRedirAux redirInit (tokenize " \"\"")).2 = "\n" := by
  refine ⟨?_, by decide, by decide, by decide, by decide⟩
  intro s t ht
  obtain ⟨x, hx, rfl⟩ := List.mem_map.1 ht
  intro h
  exact tokenizeAux_ne_nil false false [] s.data x hx (by
    have : (List.asString x).data = ("" : String).data := by rw [h]
    simpa using this)

/-- Witness for the hypothesis of `c10_tokens_nonempty`: the token `"ab"`
of the line `"ab cd"` is non-empty. -/
theorem c10_witness : "ab" ∈ tokenize "ab cd" ∧ "ab" ≠ "" :=
  ⟨by decide, c10_tokens_nonempty.1 "ab cd" "ab" (by decide)⟩

/-- Claim C3, counterexample: the lexer does NOT drop a backslash that is
the last character of the input; `tokenize "a\\"` keeps it in the token. -/
theorem c3_counterexample :
    tokenize "a\\" = ["a\\"] ∧ tokenize "a\\" ≠ ["a"] := by decide

/-- Claim C3 (amended): in the Unquoted state a backslash escapes the next
character literally whenever one exists (whitespace, quotes, `$` and `\`
included), and a backslash that is the LAST character of the input is
preserved literally as part of the current token (the guard
`i + 1 < s.size()` fails, so the final `else` appends the backslash
itself; it is not dropped). -/
theorem c3_unquoted_backslash :
    (∀ (cur : List Char) (c : Char) (rest : List Char),
      tokenizeAux false false cur ('\\' :: c :: rest) =
        tokenizeAux false false (cur ++ [c]) rest) ∧
    (∀ cur : List Char, tokenizeAux false false cur ['\\'] = [cur ++ ['\\']]) := by
  constructor
  · intro cur c rest
    rfl
  · intro cur
    simp [tokenizeAux, squote, isSpaceByte]

/-- Claim C8: in the InDouble state a backslash escapes the immediately
following character exactly when that character is one of `"`, `\`, `$`,
newline; before any other character the backslash itself is preserved
literally; in particular lexing `"a\"b"` yields `a"b` while `"a\nb"` keeps
the backslash before `n`. -/
theorem c8_indouble_backslash :
    (∀ (cur : List Char) (c : Char) (rest : List Char), isDQSpecial c = true →
      tokenizeAux false true cur ('\\' :: c :: rest) =
        tokenizeAux false true (cur ++ [c]) rest) ∧
    (∀ (cur : List Char) (c : Char) (rest : List Char), isDQSpecial c = false →
      tokenizeAux false true cur ('\\' :: c :: rest) =
        tokenizeAux false true (cur ++ ['\\']) (c :: rest)) ∧
    tokenize "\"a\\\"b\"" = ["a\"b"] ∧
    tokenize "\"a\\nb\"" = ["a\\nb"] := by
  refine ⟨?_, ?_, by decide, by decide⟩ <;>
    · intro cur c rest h
      simp [tokenizeAux, squote, h]

/-- Witness for `c8_indouble_backslash`: the escape fires before `$` and
does not fire before `n`. -/
theorem c8_witness :
    tokenizeAux false true [] ['\\', '$'] = tokenizeAux false true ['$'] [] ∧
    tokenizeAux false true [] ['\\', 'n', 'x'] =
      tokenizeAux false true ['\\'] ['n', 'x'] :=
  ⟨c8_indouble_backslash.1 [] '$' [] (by decide),
   c8_indouble_backslash.2.1 [] 'n' ['x'] (by decide)⟩

/-! ## Redirection-extraction lemmas -/

/-- The residual argv is a sublist of the input tokens: the extraction loop
only ever erases tokens, so the surviving tokens keep their relative
order. -/
theorem extractRedirAux_sublist (st : RedirSt) (ts : List String) :
    (extractRedirAux st ts).2.Sublist ts := by
  induction st, ts using extractRedirAux.induct with
  | case1 st => simp [extractRedirAux]
  | case2 st t => simp [extractRedirAux]
  | case3 st t t2 rest h ih =>
    rw [extractRedirAux, if_pos h]
    exact ih.trans ((List.sublist_cons_self t2 rest).trans (List.sublist_cons_self t _))
  | case4 st t t2 rest h1 h ih =>
    rw [extractRedirAux, if_neg h1, if_pos h]
    exact ih.trans ((List.sublist_cons_self t2 rest).trans (List.sublist_cons_self t _))
  | case5 st t2 rest h1 h2 ih =>
    rw [extractRedirAux, if_neg h1, if_neg h2, if_pos rfl]
    exact ih.trans ((List.sublist_cons_self t2 rest).trans (List.sublist_cons_self _ _))
  | case6 st t2 rest h1 h2 h3 ih =>
    rw [extractRedirAux, if_neg h1, if_neg h2, if_neg h3, if_pos rfl]
    exact ih.trans ((List.sublist_cons_self t2 rest).trans (List.sublist_cons_self _ _))
  | case7 st t t2 rest h1 h2 h3 h4 ih =>
    rw [extractRedirAux, if_neg h1, if_neg h2, if_neg h3, if_neg h4]
    exact ih.cons₂ t

/-- Claim C9: the extraction removes each operator token together with the
immediately following token as its target; a later operator of the same
stream overrides the earlier target and append flag; an operator that is
the final token is left in the argv unchanged; and the residual argv
preserves the original relative order of the surviving tokens (it is a
sublist of the input). -/
theorem c9_redirection_extraction :
    (∀ (st : RedirSt) (op t2 : String) (rest : List String), op = ">" ∨ op = "1>" →
      extractRedirAux st (op :: t2 :: rest) =
        extractRedirAux { st with redirectFile := t2, appendMode := false } rest) ∧
    (∀ (st : RedirSt) (op t2 : String) (rest : List String), op = ">>" ∨ op = "1>>" →
      extractRedirAux st (op :: t2 :: rest) =
        extractRedirAux { st with redirectFile := t2, appendMode := true } rest) ∧
    (∀ (st : RedirSt) (op t2 : String) (rest : List String), op = "2>" ∨ op = "2>>" →
      extractRedirAux st (op :: t2 :: rest) =
        extractRedirAux
          { st with
              redirectStderrFile := t2
              appendStderrMode := decide (op = "2>>") } rest) ∧
    (∀ (st : RedirSt) (t : String), extractRedirAux st [t] = (st, [t])) ∧
    (∀ (st : RedirSt) (t : String) (ts : List String), t ∉ redirOps →
      extractRedirAux st (t :: ts) =
        ((extractRedirAux st ts).1, t :: (extractRedirAux st ts).2)) ∧
    (∀ (st : RedirSt) (ts : List String), (extractRedirAux st ts).2.Sublist ts) ∧
    (∀ (st : RedirSt) (f1 f2 : String),
      (extractRedirAux st [">", f1, ">>", f2]).1.redirectFile = f2 ∧
      (extractRedirAux st [">", f1, ">>", f2]).1.appendMode = true) := by
  refine ⟨?_, ?_, ?_, ?_, ?_, extractRedirAux_sublist, ?_⟩
  · rintro st op t2 rest (rfl | rfl) <;> rfl
  · rintro st op t2 rest (rfl | rfl) <;> simp [extractRedirAux]
  · rintro st op t2 rest (rfl | rfl) <;> simp [extractRedirAux]
  · intro st t
    rfl
  · intro st t ts ht
    simp only [redirOps, List.mem_cons, List.not_mem_nil, or_false, not_or] at ht
    obtain ⟨h1, h2, h3, h4, h5, h6⟩ := ht
    match ts with
    | [] => rfl
    | t2 :: rest =>
      rw [extractRedirAux, if_neg (by tauto), if_neg (by tauto), if_neg h5, if_neg h6]
  · intro st f1 f2
    constructor <;> rfl

/-- Witness for `c9_redirection_extraction`: concrete instances of each
conditional clause. -/
theorem c9_witness :
    extractRedirAux redirInit [">", "f"] =
      extractRedirAux ⟨"f", false, "", false⟩ [] ∧
    extractRedirAux redirInit [">>", "f"] =
      extractRedirAux ⟨"f", true, "", false⟩ [] ∧
    extractRedirAux redirInit ["2>", "f"] =
      extractRedirAux ⟨"", false, "f", false⟩ [] ∧
    extractRedirAux redirInit ["a", "b"] =
      ((extractRedirAux redirInit ["b"]).1, "a" :: (extractRedirAux redirInit ["b"]).2) :=
  ⟨c9_redirection_extraction.1 redirInit ">" "f" [] (Or.inl rfl),
   c9_redirection_extraction.2.1 redirInit ">>" "f" [] (Or.inl rfl),
   c9_redirection_extraction.2.2.1 redirInit "2>" "f" [] (Or.inl rfl),
   c9_redirection_extraction.2.2.2.2.1 redirInit "a" ["b"] (by decide)⟩

/-- Claim C2, counterexample: for the input line `echo ">" out` the `echo`
builtin tokenizes the text after `echo` (the string `" \">\" out"`); the
quoted `">"` lexes to the bare token `">"`, and the extraction loop then
treats it as a stdout redirection to `out` — the quoted `">"` does NOT
remain an ordinary argument in the residual argv. -/
theorem c2_counterexample :
    tokenize " \">\" out" = [">", "out"] ∧
    (extractRedirAux redirInit (tokenize " \">\" out")).1.redirectFile = "out" ∧
    (extractRedirAux redirInit (tokenize " \">\" out")).2 = [] ∧
    ">" ∉ (extractRedirAux redirInit (tokenize " \">\" out")).2 := by decide

/-- Claim C2 (amended): operators are indeed not lexed specially, but the
lexer erases the quotes, so a quoted operator produces the very same token
as the unquoted one; downstream recognition is by token value only, and
therefore a quoted `">"` DOES act as a redirection (it is consumed together
with the following token and does not stay in the residual argv). -/
theorem c2_quoted_operator_same_token :
    tokenize "\">\"" = tokenize ">" ∧
    tokenize "\">>\"" = tokenize ">>" ∧
    tokenize "\"1>\"" = tokenize "1>" ∧
    tokenize "\"1>>\"" = tokenize "1>>" ∧
    tokenize "\"2>\"" = tokenize "2>" ∧
    tokenize "\"2>>\"" = tokenize "2>>" ∧
    tokenize " \">\" out" = tokenize " > out" ∧
    (extractRedirAux redirInit (tokenize " \">\" out")).1.redirectFile = "out" ∧
    (extractRedirAux redirInit (tokenize " \">\" out")).2 = [] := by decide

/-! ## History lemmas -/

/-- The `history -a` write loop, started at index `i` with `l.length - i`
iterations left, writes exactly the entries from index `i` on. -/
theorem writeRange_eq_drop (l : List String) :
    ∀ (k i : Nat), i + k = l.length → writeRange l i k = l.drop i := by
  intro k
  induction k with
  | zero =>
    intro i hi
    rw [writeRange, List.drop_eq_nil_of_le (by omega)]
  | succ k ih =>
    intro i hi
    have hlt : i < l.length := by omega
    rw [writeRange, ih (i + 1) (by omega), List.drop_eq_getElem_cons hlt,
      List.getD_eq_getElem l "" hlt]

/-- What `history -a` writes is exactly the suffix of the history starting
at the cursor. -/
theorem writtenByDashA_eq_drop (s : HistState) :
    writtenByDashA s = s.entries.drop s.lastAppended := by
  rcases le_or_lt s.lastAppended s.entries.length with h | h
  · exact writeRange_eq_drop s.entries _ s.lastAppended (by omega)
  · have h1 : s.entries.length - s.lastAppended = 0 := by omega
    rw [writtenByDashA, h1, writeRange, List.drop_eq_nil_of_le (by omega)]

/-- The cursor invariant `last_appended ≤ len(history)` is preserved by
every operation. -/
theorem histRun_cursor_le (ops : List HistOp) :
    ∀ s : HistState, s.lastAppended ≤ s.entries.length →
      (histRun s ops).lastAppended ≤ (histRun s ops).entries.length := by
  induction ops with
  | nil => intro s hs; exact hs
  | cons op ops ih =>
    intro s hs
    rw [histRun]
    apply ih
    cases op with
    | append line => simp [histStep]; omega
    | dashA => simp [histStep]

/-- Claim C7: for every sequence of history `append` and `history -a`
operations starting from the initial state, the cursor satisfies
`last_appended ≤ len(history)`; `history -a` appends exactly the entries
with indices `[last_appended .. len)` and then sets
`last_appended := len(history)`, so a second `-a` with no intervening
append writes nothing. -/
theorem c7_history_cursor (ops : List HistOp) :
    (histRun histInit ops).lastAppended ≤ (histRun histInit ops).entries.length ∧
    (histStep (histRun histInit ops) .dashA).2 =
      (histRun histInit ops).entries.drop (histRun histInit ops).lastAppended ∧
    (histStep (histRun histInit ops) .dashA).1.lastAppended =
      (histRun histInit ops).entries.length ∧
    (histStep (histRun histInit ops) .dashA).1.entries =
      (histRun histInit ops).entries ∧
    (histStep (histStep (histRun histInit ops) .dashA).1 .dashA).2 = [] := by
  refine ⟨histRun_cursor_le ops histInit (by simp [histInit]), ?_, rfl, rfl, ?_⟩
  · exact writtenByDashA_eq_drop _
  · rw [histStep, writtenByDashA_eq_drop]
    exact List.drop_eq_nil_of_le (by simp [histStep])

/-! ## Path-resolver lemmas -/

/-- Path resolution exactly as claim C4 states it: empty `PATH` entries are
skipped as misses, and a candidate wins only if owner-execute is set AND it
is not a directory.  This definition follows the words of the claim, for
comparison with `resolveExec` (the code); it is not what the code does. -/
def resolveClaimC4 (fs : String → Option StatInfo) (pathEnv : Option String)
    (c : String) : Option String :=
  if '/' ∈ c.data then some c
  else
    match pathEnv with
    | none => none
    | some p =>
      (((splitColon p).filter (fun d => d ≠ "")).map (fun d => d ++ "/" ++ c)).find?
        (fun fp =>
          match fs fp with
          | some m => m.ixusr && !m.isDir
          | none => false)

/-- The resolution rule of the code restated declaratively: first candidate over
ALL `PATH` entries (empty ones included, probing `"/" ++ c`) whose stat
succeeds with owner-execute set, directories not excluded. -/
def resolveAmendedC4 (fs : String → Option StatInfo) (pathEnv : Option String)
    (c : String) : Option String :=
  if '/' ∈ c.data then some c
  else
    match pathEnv with
    | none => none
    | some p => ((splitColon p).map (fun d => d ++ "/" ++ c)).find? (fun fp => statExecOk (fs fp))

/-- The search loop returns the first probed candidate passing the stat
test. -/
theorem searchPathDirs_eq_find? (fs : String → Option StatInfo) (c : String) :
    ∀ ds : List String,
      searchPathDirs fs c ds = (ds.map (fun d => d ++ "/" ++ c)).find? (fun fp => statExecOk (fs fp)) := by
  intro ds
  induction ds with
  | nil => rfl
  | cons d ds ih =>
    rw [searchPathDirs, List.map_cons, List.find?]
    rcases h : statExecOk (fs (d ++ "/" ++ c)) with _ | _
    · simpa [h] using ih
    · simp [h]

/-- A filesystem in which `d/c` is a directory with the owner-execute bit
set (as directories normally have), and nothing else exists. -/
def fsDirOnly : String → Option StatInfo :=
  fun s => if s = "d/c" then some ⟨true, true⟩ else none

/-- A filesystem in which `/x` (the probe an empty `PATH` entry produces
for command `x`) is an executable regular file. -/
def fsRootHit : String → Option StatInfo :=
  fun s => if s = "/x" then some ⟨true, false⟩ else none

/-- Claim C4, counterexample: the resolver (`resolveExec`, the code) takes
a directory `d/c` as a match because it never tests `S_IFDIR`, and an
empty `PATH` element is not a miss — it probes `"/" ++ c` and can resolve
there; in both cases the rule stated by the claim (`resolveClaimC4`)
returns `none` while the code returns a path. -/
theorem c4_counterexample :
    resolveExec fsDirOnly (some "d") "c" = some "d/c" ∧
    resolveClaimC4 fsDirOnly (some "d") "c" = none ∧
    resolveExec fsRootHit (some ":") "x" = some "/x" ∧
    resolveClaimC4 fsRootHit (some ":") "x" = none := by decide

/-- Claim C4 (amended): for a command without `/`, the resolver iterates
ALL `PATH` entries split on `:` in order — empty entries included, an
empty entry probing `"/" ++ c` — and returns the first candidate whose
stat succeeds with owner-execute set, with no directory check. -/
theorem c4_resolver_first_ixusr_match :
    ∀ (fs : String → Option StatInfo) (pathEnv : Option String) (c : String),
      resolveExec fs pathEnv c = resolveAmendedC4 fs pathEnv c := by
  intro fs pathEnv c
  rw [resolveExec.eq_def, resolveAmendedC4.eq_def]
  split
  · rfl
  · cases pathEnv with
    | none => rfl
    | some p => exact searchPathDirs_eq_find? fs c (splitColon p)

/-! ## The `cd ~` builtin -/

/-- Claim C5, counterexample: with `$HOME` unset, `cd ~` prints NO
diagnostic at all (the condition `home && chdir(home) != 0` is false when
`home` is null) and calls `chdir` on nothing — the clause of the claim,
"the diagnostic is printed also in the case where `$HOME` is unset" fails. -/
theorem c5_counterexample :
    (cdStep "~" none (fun _ => false)).2 = [] ∧
    (cdStep "~" none (fun _ => false)).2 ≠ [cdMsg "~"] ∧
    (cdStep "~" none (fun _ => false)).1 = none := by
  refine ⟨?_, ?_, ?_⟩ <;> simp [cdStep, cdMsg]

/-- Claim C5 (amended): `cd ~` calls `chdir` on exactly `$HOME` when it is
set (and on nothing otherwise); the diagnostic
`cd: ~: No such file or directory` is printed precisely when `$HOME` is
set and the chdir fails — when `$HOME` is unset the builtin is silent. -/
theorem c5_cd_tilde :
    ∀ (home : Option String) (chdirOk : String → Bool),
      (cdStep "~" home chdirOk).1 = home ∧
      ((cdStep "~" home chdirOk).2 ≠ [] ↔ ∃ h, home = some h ∧ chdirOk h = false) ∧
      ((cdStep "~" home chdirOk).2 = [] ∨ (cdStep "~" home chdirOk).2 = [cdMsg "~"]) := by
  intro home chdirOk
  cases home with
  | none => simp [cdStep]
  | some h =>
    rcases hc : chdirOk h with _ | _ <;> simp [cdStep, hc]

/-! ## Pipeline-failure lemmas -/

/-- The bail-out loop finds no failure iff every call in its range
succeeds. -/
theorem firstFailFrom_eq_none_iff (ok : Nat → Bool) :
    ∀ (k i : Nat), firstFailFrom ok i k = none ↔ ∀ j, j < k → ok (i + j) = true := by
  intro k
  induction k with
  | zero => intro i; simp [firstFailFrom]
  | succ k ih =>
    intro i
    rw [firstFailFrom]
    rcases h : ok i with _ | _
    · rw [if_neg (fun hh => Bool.noConfusion hh)]
      constructor
      · intro hfalse; exact absurd hfalse (by simp)
      · intro hall
        have := hall 0 (by omega)
        simp [h] at this
    · rw [if_pos rfl, ih (i + 1)]
      constructor
      · intro hall j hj
        rcases j with _ | j
        · simpa using h
        · have := hall j (by omega)
          simpa [Nat.add_comm, Nat.add_left_comm] using this
      · intro hall j hj
        have := hall (j + 1) (by omega)
        simpa [Nat.add_comm, Nat.add_left_comm] using this

/-- Claim C1, counterexample: in a three-stage pipeline whose second
`pipe()` call fails (the first having succeeded), the shell does NOT
continue its REPL — `main` executes `return 1`, terminating the whole
shell process — and it closes none of the two descriptors of the pipe
already allocated. -/
theorem c1_counterexample :
    (runPipelineSetup 3 (fun i => i == 0) (fun _ => true)).replContinues = false ∧
    (runPipelineSetup 3 (fun i => i == 0) (fun _ => true)).exitStatus = some 1 ∧
    (runPipelineSetup 3 (fun i => i == 0) (fun _ => true)).pipesAllocated = 1 ∧
    (runPipelineSetup 3 (fun i => i == 0) (fun _ => true)).parentFdsClosed = 0 ∧
    ¬((runPipelineSetup 3 (fun i => i == 0) (fun _ => true)).replContinues = true ∧
      (runPipelineSetup 3 (fun i => i == 0) (fun _ => true)).parentFdsClosed =
        2 * (runPipelineSetup 3 (fun i => i == 0) (fun _ => true)).pipesAllocated) := by
  decide

/-- Claim C1 (amended): if any `pipe()` call of a pipeline fails, the shell
reports `Failed to create pipe` to stderr and the whole shell process
terminates with status 1 WITHOUT closing the descriptors already
allocated; if all pipes succeed but a `fork()` fails, the shell closes all
`2*(n-1)` pipe descriptors, reports `Failed to fork`, and likewise
terminates with status 1; only when every call succeeds does the REPL
continue to the next prompt (after closing all pipe descriptors). -/
theorem c1_pipeline_failure_fatal (n : Nat) (pipeOk forkOk : Nat → Bool) :
    ((∃ i, i < n - 1 ∧ pipeOk i = false) →
      (runPipelineSetup n pipeOk forkOk).replContinues = false ∧
      (runPipelineSetup n pipeOk forkOk).exitStatus = some 1 ∧
      (runPipelineSetup n pipeOk forkOk).parentFdsClosed = 0 ∧
      (runPipelineSetup n pipeOk forkOk).errs = ["Failed to create pipe"]) ∧
    ((∀ i, i < n - 1 → pipeOk i = true) → (∃ j, j < n ∧ forkOk j = false) →
      runPipelineSetup n pipeOk forkOk =
        ⟨false, some 1, n - 1, 2 * (n - 1), ["Failed to fork"]⟩) ∧
    ((∀ i, i < n - 1 → pipeOk i = true) → (∀ j, j < n → forkOk j = true) →
      runPipelineSetup n pipeOk forkOk = ⟨true, none, n - 1, 2 * (n - 1), []⟩) := by
  refine ⟨?_, ?_, ?_⟩
  · rintro ⟨i, hi, hfail⟩
    have hne : firstFailFrom pipeOk 0 (n - 1) ≠ none := by
      rw [Ne, firstFailFrom_eq_none_iff]
      intro hall
      have := hall i hi
      simp [hfail] at this
    rcases hsome : firstFailFrom pipeOk 0 (n - 1) with _ | i0
    · exact absurd hsome hne
    · simp [runPipelineSetup, hsome]
  · intro hpipes
    rintro ⟨j, hj, hfail⟩
    have hp : firstFailFrom pipeOk 0 (n - 1) = none := by
      rw [firstFailFrom_eq_none_iff]
      intro j hj
      simpa using hpipes j hj
    have hne : firstFailFrom forkOk 0 n ≠ none := by
      rw [Ne, firstFailFrom_eq_none_iff]
      intro hall
      have := hall j hj
      simp [hfail] at this
    rcases hsome : firstFailFrom forkOk 0 n with _ | j0
    · exact absurd hsome hne
    · simp [runPipelineSetup, hp, hsome]
  · intro hpipes hforks
    have hp : firstFailFrom pipeOk 0 (n - 1) = none := by
      rw [firstFailFrom_eq_none_iff]
      intro j hj
      simpa using hpipes j hj
    have hf : firstFailFrom forkOk 0 n = none := by
      rw [firstFailFrom_eq_none_iff]
      intro j hj
      simpa using hforks j hj
    simp [runPipelineSetup, hp, hf]

/-- Witness for `c1_pipeline_failure_fatal`: a two-stage pipeline whose
single pipe fails, one whose fork fails, and one with no failure. -/
theorem c1_witness :
    (runPipelineSetup 2 (fun _ => false) (fun _ => true)).replContinues = false ∧
    runPipelineSetup 2 (fun _ => true) (fun _ => false) =
      ⟨false, some 1, 1, 2, ["Failed to fork"]⟩ ∧
    runPipelineSetup 2 (fun _ => true) (fun _ => true) = ⟨true, none, 1, 2, []⟩ :=
  ⟨((c1_pipeline_failure_fatal 2 (fun _ => false) (fun _ => true)).1
      ⟨0, by decide, rfl⟩).1,
   (c1_pipeline_failure_fatal 2 (fun _ => true) (fun _ => false)).2.1
      (fun _ _ => rfl) ⟨0, by decide, rfl⟩,
   (c1_pipeline_failure_fatal 2 (fun _ => true) (fun _ => true)).2.2
      (fun _ _ => rfl) (fun _ _ => rfl)⟩

/-! ## Lexicographic-order lemmas for the completion engine -/

/-- `charListLt` is asymmetric. -/
theorem charListLt_asymm :
    ∀ (a b : List Char), charListLt a b = true → charListLt b a = false := by
  intro a
  induction a with
  | nil =>
    intro b h
    cases b with
    | nil => simp [charListLt] at h
    | cons y ys => simp [charListLt]
  | cons x xs ih =>
    intro b h
    cases b with
    | nil => simp [charListLt] at h
    | cons y ys =>
      rw [charListLt] at h ⊢
      by_cases h1 : x < y
      · rw [if_neg (lt_asymm h1), if_pos h1]
      · by_cases h2 : y < x
        · rw [if_neg h1, if_pos h2] at h
          exact absurd h (by simp)
        · rw [if_neg h1, if_neg h2] at h
          rw [if_neg h2, if_neg h1]
          exact ih ys h

/-- Two lists neither of which is lexicographically below the other are
equal. -/
theorem charListLt_conn :
    ∀ (a b : List Char), charListLt a b = false → charListLt b a = false → a = b := by
  intro a
  induction a with
  | nil =>
    intro b hab hba
    cases b with
    | nil => rfl
    | cons y ys => simp [charListLt] at hab
  | cons x xs ih =>
    intro b hab hba
    cases b with
    | nil => simp [charListLt] at hba
    | cons y ys =>
      rw [charListLt] at hab hba
      by_cases h1 : x < y
      · rw [if_pos h1] at hab
        exact absurd hab (by simp)
      · by_cases h2 : y < x
        · rw [if_pos h2] at hba
          exact absurd hba (by simp)
        · rw [if_neg h1, if_neg h2] at hab
          have hx : x = y := le_antisymm (not_lt.mp h2) (not_lt.mp h1)
          rw [if_neg h2, if_neg h1] at hba
          rw [hx, ih ys hab hba]

/-- `charListLt` is transitive. -/
theorem charListLt_trans :
    ∀ (a b c : List Char), charListLt a b = true → charListLt b c = true →
      charListLt a c = true := by
  intro a
  induction a with
  | nil =>
    intro b c hab hbc
    cases b with
    | nil => simp [charListLt] at hab
    | cons y ys =>
      cases c with
      | nil => simp [charListLt] at hbc
      | cons z zs => simp [charListLt]
  | cons x xs ih =>
    intro b c hab hbc
    cases b with
    | nil => simp [charListLt] at hab
    | cons y ys =>
      cases c with
      | nil => simp [charListLt] at hbc
      | cons z zs =>
        rw [charListLt] at hab hbc ⊢
        by_cases h1 : x < y
        · by_cases h2 : y < z
          · rw [if_pos (lt_trans h1 h2)]
          · by_cases h3 : z < y
            · rw [if_neg h2, if_pos h3] at hbc
              exact absurd hbc (by simp)
            · have hyz : y = z := le_antisymm (not_lt.mp h3) (not_lt.mp h2)
              rw [if_pos (hyz ▸ h1)]
        · by_cases h2 : y < x
          · rw [if_neg h1, if_pos h2] at hab
            exact absurd hab (by simp)
          · have hxy : x = y := le_antisymm (not_lt.mp h2) (not_lt.mp h1)
            rw [if_neg h1, if_neg h2] at hab
            by_cases h3 : y < z
            · rw [if_pos (hxy ▸ h3)]
            · by_cases h4 : z < y
              · rw [if_neg h3, if_pos h4] at hbc
                exact absurd hbc (by simp)
              · have hyz : y = z := le_antisymm (not_lt.mp h4) (not_lt.mp h3)
                rw [if_neg h3, if_neg h4] at hbc
                have hxz : ¬ x < z := by rw [hxy, hyz]; exact lt_irrefl z
                have hzx : ¬ z < x := by rw [hxy, hyz]; exact lt_irrefl z
                rw [if_neg hxz, if_neg hzx]
                exact ih ys zs hab hbc

/-- Totality of the non-strict comparison. -/
theorem strLe_total (a b : String) : strLe a b = true ∨ strLe b a = true := by
  by_cases h : charListLt b.data a.data = true
  · right
    simp [strLe, charListLt_asymm _ _ h]
  · left
    simp [strLe]
    simpa using h

/-- Transitivity of the non-strict comparison. -/
theorem strLe_trans (a b c : String) :
    strLe a b = true → strLe b c = true → strLe a c = true := by
  simp only [strLe, Bool.not_eq_true', Bool.not_eq_true]
  intro hab hbc
  by_cases hca : charListLt c.data a.data = true
  · by_cases hAB : charListLt a.data b.data = true
    · have := charListLt_trans c.data a.data b.data hca hAB
      rw [this] at hbc
      exact absurd hbc (by simp)
    · have : a.data = b.data := charListLt_conn a.data b.data (by simpa using hAB) hab
      rw [← this] at hbc
      rw [hca] at hbc
      exact absurd hbc (by simp)
  · simpa using hca

/-- Non-strict comparison plus inequality gives the strict comparison. -/
theorem strLt_of_strLe_of_ne (a b : String) :
    strLe a b = true → a ≠ b → strLt a b = true := by
  intro hle hne
  by_cases h : charListLt a.data b.data = true
  · exact h
  · exfalso
    apply hne
    have hba : charListLt b.data a.data = false := by simpa [strLe] using hle
    have := charListLt_conn a.data b.data (by simpa using h) hba
    cases a
    cases b
    exact congrArg String.mk this

/-- `uniqueAdjAux a l` always keeps `a` as its first element. -/
theorem uniqueAdjAux_head_cons :
    ∀ (l : List String) (a : String), ∃ t, uniqueAdjAux a l = a :: t := by
  intro l
  induction l with
  | nil => intro a; exact ⟨[], rfl⟩
  | cons b rest ih =>
    intro a
    by_cases hab : a = b
    · rw [uniqueAdjAux, if_pos hab]
      exact ih a
    · rw [uniqueAdjAux, if_neg hab]
      exact ⟨uniqueAdjAux b rest, rfl⟩

/-- Removing adjacent duplicates from a `strLe`-sorted list yields a
strictly increasing list. -/
theorem chain'_strLt_uniqueAdjAux :
    ∀ (l : List String) (a : String),
      List.Sorted (fun x y => strLe x y = true) (a :: l) →
      List.Chain' (fun x y => strLt x y = true) (uniqueAdjAux a l) := by
  intro l
  induction l with
  | nil => intro a _; simp [uniqueAdjAux]
  | cons b rest ih =>
    intro a hs
    rw [List.sorted_cons] at hs
    obtain ⟨hhead, htail⟩ := hs
    by_cases hab : a = b
    · rw [uniqueAdjAux, if_pos hab]
      apply ih a
      rw [hab]
      exact htail
    · rw [uniqueAdjAux, if_neg hab]
      obtain ⟨t, ht⟩ := uniqueAdjAux_head_cons rest b
      rw [ht]
      refine List.Chain'.cons ?_ ?_
      · exact strLt_of_strLe_of_ne a b (hhead b (by simp)) hab
      · rw [← ht]
        exact ih b htail

/-- `std::unique` after sorting yields a strictly increasing list. -/
theorem chain'_strLt_uniqueAdj (l : List String) :
    List.Sorted (fun x y => strLe x y = true) l →
    List.Chain' (fun x y => strLt x y = true) (uniqueAdj l) := by
  cases l with
  | nil => intro _; simp [uniqueAdj]
  | cons a rest =>
    intro hs
    rw [uniqueAdj]
    exact chain'_strLt_uniqueAdjAux rest a hs

/-- Claim C6, counterexample: with no `$PATH` set, the completion list for
the empty prefix is the builtin table in its declaration order —
`["echo", "exit", "history", "pwd", "cd", "type"]` — which is not strictly
increasing (`"pwd"` precedes `"cd"`); moreover with an executable `echo`
on `$PATH`, the returned list contains `"echo"` twice (duplicates across
the builtin part and the external part are never removed). -/
theorem c6_counterexample :
    commandCompletion (fun _ => none) (fun _ => none) none "" =
      some ["echo", "exit", "history", "pwd", "cd", "type"] ∧
    ¬ List.Chain' (fun a b => strLt a b = true)
        ["echo", "exit", "history", "pwd", "cd", "type"] ∧
    commandCompletion (fun d => if d = "p" then some ["echo"] else none)
        (fun s => if s = "p/echo" then some ⟨true, false⟩ else none)
        (some "p") "echo" = some ["echo", "echo"] ∧
    ¬ List.Chain' (fun a b => strLt a b = true) ["echo", "echo"] := by
  refine ⟨by decide, ?_, by decide, ?_⟩
  · intro h
    simp only [List.chain'_cons, List.chain'_singleton, and_true] at h
    exact absurd h.2.2.2.1 (by decide)
  · intro h
    simp only [List.chain'_cons, List.chain'_singleton, and_true] at h
    exact absurd h (by decide)

/-- Claim C6 (amended): the list the completion engine returns is the
builtin matches in the declaration order of the builtin table followed by
the external matches; only the external part is sorted and deduplicated
(it is strictly increasing in the byte-wise lexicographic order), while
the concatenation as a whole is neither sorted nor free of duplicates in
general. -/
theorem c6_completion_structure :
    ∀ (dirContents : String → Option (List String)) (fs : String → Option StatInfo)
      (pathEnv : Option String) (pre : String),
      List.Chain' (fun a b => strLt a b = true)
        (externalMatches dirContents fs pathEnv pre) ∧
      commandCompletion dirContents fs pathEnv pre =
        (if builtinMatches pre ++ externalMatches dirContents fs pathEnv pre = []
         then none
         else some (builtinMatches pre ++ externalMatches dirContents fs pathEnv pre)) := by
  intro dirContents fs pathEnv pre
  constructor
  · cases pathEnv with
    | none => simp [externalMatches]
    | some p =>
      rw [externalMatches]
      apply chain'_strLt_uniqueAdj
      haveI : IsTotal String (fun a b => strLe a b = true) := ⟨strLe_total⟩
      haveI : IsTrans String (fun a b => strLe a b = true) := ⟨strLe_trans⟩
      exact List.sorted_insertionSort _ _
  · rfl

end Shell
